import Mathlib

/-!
Verification of `pyzoo/zoo/orca/data/pandas/preprocessing.py` (`read_csv`,
`read_json`, `read_file_spark`).

The module is a parameter-translation and dispatch shim between pandas-style
readers and a distributed engine (Spark).  We embed it shallowly:

* External collaborators (`extract_one_path`, `spark.read.csv/json`, the
  per-file pandas parsers, the engine cast used by `astype`) are parameters
  of the embedded functions — the code only wires them together.
* A Spark DataFrame is modelled by its schema (named, typed columns with
  their cell values) together with its RDD partition count; the engine
  operations the source uses (`selectExpr` positional rename, `select`,
  `withColumn` + `astype`, `repartition`, `getNumPartitions`) are modelled
  on that structure.
* Python exceptions (`raise`, failing `assert`, `AttributeError`) become
  `Except String` errors carrying the message the source builds.  Messages
  are reproduced verbatim except that quote characters inside Python
  messages are dropped.
-/

namespace Preprocessing

/-- A cell value of an engine column, kept as its textual form; casting is
delegated to the engine via an explicit `cast` parameter. -/
abbrev Val := String

/-- One field of a Spark DataFrame schema (`df.schema` entries): a column
name, its data type, and the column's cell values. -/
structure Field where
  name : String
  dtype : String
  vals : List Val
  deriving Repr, DecidableEq

/-- A Spark DataFrame: its schema (with column data) and the partition count
of its underlying RDD (`df.rdd.getNumPartitions()`). -/
structure DF where
  schema : List Field
  numPartitions : Nat
  deriving Repr, DecidableEq

/-- `df.columns`: the list of column names. -/
def DF.columns (df : DF) : List String :=
  df.schema.map Field.name

/-- Positional rename, modelling
`df.selectExpr(*["NAME as NEW" for field, new in zip(df.schema, newNames)])`:
each field keeps its data but takes the name at its position.  (The source
only calls it with `newNames` of the same length as the schema.) -/
def DF.renamePositional (df : DF) (newNames : List String) : DF :=
  { df with schema := (df.schema.zip newNames).map fun fn => { fn.1 with name := fn.2 } }

/-- `df.select(cols)` for a list of column names: keeps, for each requested
name in order, the first schema field carrying that name. -/
def DF.select (df : DF) (cols : List String) : DF :=
  { df with schema := cols.filterMap fun c => df.schema.find? fun f => f.name = c }

/-- The result of `column.astype(t)` on one field: the engine cast `cast`
is applied to every cell and the field's type becomes `t`. -/
def castField (cast : String → Val → Val) (t : String) (f : Field) : Field :=
  { name := f.name, dtype := t, vals := f.vals.map (cast t) }

/-- `df.withColumn(c, df[c].astype(t))`: `df[c]` raises when the column does
not exist; otherwise every field named `c` is replaced by its cast. -/
def DF.astypeCol (df : DF) (cast : String → Val → Val) (c t : String) :
    Except String DF :=
  if df.schema.any fun f => f.name = c then
    .ok { df with schema := df.schema.map fun f =>
            if f.name = c then castField cast t f else f }
  else
    .error ("AnalysisException: cannot resolve column name " ++ c)

/-! ## The pandas-style keyword arguments the Spark backend interprets

`read_file_spark` pops `names`, `usecols`, `dtype`, `squeeze`, `index_col`
from `kwargs` and, for CSV, also interprets `header`, `quotechar`,
`escapechar` and `comment`; `mangle_dupe_cols` and `parse_dates` are
validated for both file types.  We model each with the value shapes the
source distinguishes. -/

/-- The `names` argument: absent (`None`), a schema-DDL string, or a list of
column names. -/
inductive NamesArg where
  | none
  | str (s : String)
  | list (l : List String)
  deriving Repr, DecidableEq

/-- One element of a list-like `usecols`: an `int`, a `str`, or a value of
any other type (which makes the whole list invalid). -/
inductive UsecolsEntry where
  | int (n : Int)
  | str (s : String)
  | other
  deriving Repr, DecidableEq

/-- `isinstance(col, int)` for a `usecols` entry. -/
def UsecolsEntry.isInt : UsecolsEntry → Bool
  | .int _ => true
  | _ => false

/-- `isinstance(col, str)` for a `usecols` entry. -/
def UsecolsEntry.isStr : UsecolsEntry → Bool
  | .str _ => true
  | _ => false

/-- The integer carried by a `usecols` entry, if any. -/
def UsecolsEntry.toInt : UsecolsEntry → Option Int
  | .int n => some n
  | _ => Option.none

/-- The string carried by a `usecols` entry, if any. -/
def UsecolsEntry.toStr : UsecolsEntry → Option String
  | .str s => some s
  | _ => Option.none

/-- The `usecols` argument: absent, a callable predicate on column names, or
a list-like of entries. -/
inductive UsecolsArg where
  | none
  | callable (p : String → Bool)
  | list (l : List UsecolsEntry)

/-- The `dtype` argument: absent, a per-column mapping (a `dict`, modelled as
an association list with distinct keys), or a single type. -/
inductive DtypeArg where
  | none
  | dict (m : List (String × String))
  | single (t : String)

/-- The `header` argument as the source inspects it: the default/explicit
string `"infer"`, an integer, Python `None`, or a value of any other kind
(carried by its display form, used in the error message). -/
inductive HeaderArg where
  | infer
  | int (n : Int)
  | none
  | other (r : String)
  deriving Repr, DecidableEq

/-- Python display of a header value, for the
`"Unknown header argument {}"` message. -/
def HeaderArg.display : HeaderArg → String
  | .infer => "infer"
  | .int n => toString n
  | .none => "None"
  | .other r => r

/-- The `comment` argument when present: a string, or a value of another
type (`isinstance(comment, str)` fails). -/
inductive CommentArg where
  | str (s : String)
  | nonstr
  deriving Repr, DecidableEq

/-- The keyword arguments of `read_file_spark` that the Spark backend
interprets (remaining pandas options pass through to the engine readers
untouched and are absorbed by the reader parameters). -/
structure SparkOpts where
  mangle_dupe_cols : Option Bool := Option.none
  parse_dates : Option Bool := Option.none
  names : NamesArg := .none
  usecols : UsecolsArg := .none
  dtype : DtypeArg := .none
  squeeze : Bool := false
  index_col : Option String := Option.none
  header : HeaderArg := .infer
  quotechar : Option String := Option.none
  escapechar : Option String := Option.none
  comment : Option CommentArg := Option.none

/-- The engine-side options `read_file_spark` hands to `spark.read.csv`
after translating the pandas-compatible keyword arguments. -/
structure CsvEngineOpts where
  inferSchema : Bool
  schemaDDL : Option String
  header : Bool
  quote : Option String
  escape : Option String
  comment : Option String
  deriving Repr, DecidableEq

/-! ## Header translation (source lines 119-129) -/

/-- Lines 122-123: `if header == "infer": header = 0 if names is None else
None`.  The local `header` value after inference resolution. -/
def resolveHeader (names : NamesArg) (header : HeaderArg) : HeaderArg :=
  if header = .infer then
    (if names = NamesArg.none then .int 0 else .none)
  else header

/-- Lines 124-129: `header == 0` sets the engine header flag to `True`,
`header is None` sets it to `False`, anything else raises
`ValueError("Unknown header argument ...")`. -/
def headerFlag (h : HeaderArg) : Except String Bool :=
  if h = .int 0 then .ok true
  else if h = HeaderArg.none then .ok false
  else .error ("Unknown header argument " ++ h.display)

/-- Lines 139-142: a present `comment` must be a length-1 string, otherwise
`ValueError("Only length-1 comment characters supported")`. -/
def checkComment : Option CommentArg → Except String (Option String)
  | Option.none => .ok Option.none
  | some (.str s) =>
      if s.length = 1 then .ok (some s)
      else .error "Only length-1 comment characters supported"
  | some .nonstr => .error "Only length-1 comment characters supported"

/-- Lines 116-142: translation of the pandas-compatible CSV keyword
arguments into engine options: `inferSchema=True`, a schema-DDL shortcut
when `names` is a string, header resolution, `quotechar`/`escapechar`
renamed to `quote`/`escape`, `comment` validated.  Returns the engine
options together with the resolved local `header` value (consulted again at
lines 144-146). -/
def translateCsv (names : NamesArg) (header : HeaderArg)
    (quotechar escapechar : Option String) (comment : Option CommentArg) :
    Except String (CsvEngineOpts × HeaderArg) := do
  let h := resolveHeader names header
  let flag ← headerFlag h
  let comment2 ← checkComment comment
  .ok ({ inferSchema := true
         schemaDDL := match names with | .str s => some s | _ => Option.none
         header := flag
         quote := quotechar
         escape := escapechar
         comment := comment2 }, h)

/-- Lines 144-146: when the resolved header is absent, rename every column
positionally to its zero-based index as a string label
(`"FIELD as I" for i, field in enumerate(df.schema)`). -/
def headerRenameStep (h : HeaderArg) (df : DF) : DF :=
  if h = HeaderArg.none then
    df.renamePositional ((List.range df.schema.length).map toString)
  else df

/-! ## `names` post-processing (source lines 151-162) -/

/-- Lines 151-162: when `names` is a list, reject duplicates
(`len(set(names)) != len(names)`), reject a length different from the
engine-inferred column count, then rename positionally. -/
def namesStep (names : NamesArg) (df : DF) : Except String DF :=
  match names with
  | .list ns =>
      if ns.dedup.length ≠ ns.length then
        .error "Found duplicate names, please check your names input"
      else if ns.length ≠ df.schema.length then
        .error ("The number of names [" ++ toString ns.length ++
          "] does not match the number of columns [" ++
          toString df.schema.length ++
          "]. Try names by a Spark SQL DDL-formatted string.")
      else .ok (df.renamePositional ns)
  | _ => .ok df

/-! ## `usecols` post-processing (source lines 163-188) -/

/-- Python list indexing `df.schema[i]` with negative-index support;
out-of-range raises `IndexError`. -/
def pyIndex (l : List Field) (i : Int) : Except String Field :=
  if h : 0 ≤ i ∧ i < l.length then
    .ok (l.get ⟨i.toNat, by omega⟩)
  else if h2 : -(l.length : Int) ≤ i ∧ i < 0 then
    .ok (l.get ⟨(l.length + i).toNat, by omega⟩)
  else .error "IndexError: list index out of range"

/-- Lines 171-175: the `missing` comprehension of the all-integers branch:
`[col for col in usecols if col >= len(df.schema) or df.schema[col].name not
in cols]` (the indexing itself can raise for very negative entries). -/
def missingInts (schema : List Field) (cols : List String) :
    List Int → Except String (List Int)
  | [] => .ok []
  | c :: rest =>
      if c ≥ (schema.length : Int) then do
        let tail ← missingInts schema cols rest
        .ok (c :: tail)
      else do
        let f ← pyIndex schema c
        let tail ← missingInts schema cols rest
        if f.name ∈ cols then .ok tail else .ok (c :: tail)

/-- Whether an integer `usecols` entry that does not underflow the schema
(`c ≥ -len(schema)`) fails to resolve: it is past the end, or the column
name at its Python index was not resolved into `cols`.  This is the
membership test of the lines 171-175 comprehension, written totally; the
lemmas below prove it agrees with `missingInts`. -/
def intMissing (schema : List Field) (cols : List String) (c : Int) : Bool :=
  if c ≥ (schema.length : Int) then true
  else
    match schema.get? (if c < 0 then ((schema.length : Int) + c).toNat
        else c.toNat) with
    | some f => decide (f.name ∉ cols)
    | Option.none => true

/-- Display of a list of missing `usecols` entries in the
`"usecols do not match columns..."` message (Python `%s` of a list). -/
def showMissingInts (l : List Int) : String := toString l

/-- Display of missing string entries in the same message. -/
def showMissingStrs (l : List String) : String := toString l

/-- Lines 163-188: resolve `usecols` to concrete column names — by callable
predicate, by position for an all-integers list, or by exact name for an
all-strings list — raise on a mixed list and on missing entries, and select
the resolved columns only when the resolved list is non-empty. -/
def usecolsStep (usecols : UsecolsArg) (df : DF) : Except String DF :=
  match usecols with
  | .none => .ok df
  | .callable p =>
      let cols := (df.schema.filter fun f => p f.name).map Field.name
      -- `missing = []` in this branch
      if cols.length > 0 then .ok (df.select cols) else .ok df
  | .list l =>
      if l.all UsecolsEntry.isInt then
        let ints := l.filterMap UsecolsEntry.toInt
        let cols := ((df.schema.enum.filter fun fi => (fi.1 : Int) ∈ ints).map
          fun fi => fi.2.name)
        do
          let missing ← missingInts df.schema cols ints
          if missing.length > 0 then
            .error ("usecols do not match columns, columns expected but not found: "
              ++ showMissingInts missing)
          else if cols.length > 0 then .ok (df.select cols) else .ok df
      else if l.all UsecolsEntry.isStr then
        let strs := l.filterMap UsecolsEntry.toStr
        let cols := (df.schema.filter fun f => f.name ∈ strs).map Field.name
        let missing := strs.filter fun c => c ∉ cols
        if missing.length > 0 then
          .error ("usecols do not match columns, columns expected but not found: "
            ++ showMissingStrs missing)
        else if cols.length > 0 then .ok (df.select cols) else .ok df
      else
        .error "usecols must only be list-like of all strings, all unicode, all integers or a callable."

/-! ## `dtype` post-processing (source lines 189-195) -/

/-- Lines 189-195: `dtype` as a `dict` casts each listed column via repeated
`withColumn`/`astype`; a single `dtype` casts every column of the frame. -/
def applyDtype (cast : String → Val → Val) (dtype : DtypeArg) (df : DF) :
    Except String DF :=
  match dtype with
  | .none => .ok df
  | .dict m => m.foldlM (fun d ct => d.astypeCol cast ct.1 ct.2) df
  | .single t => df.columns.foldlM (fun d c => d.astypeCol cast c t) df

/-- Key lookup in the association list modelling the Python `dtype` dict. -/
def dictLookup (x : String) : List (String × String) → Option String
  | [] => Option.none
  | kv :: m => if kv.1 = x then some kv.2 else dictLookup x m

/-- The effect of the `dtype`-dict loop of lines 190-192 on one field: cast
when the field's column is listed, leave it untouched otherwise. -/
def castByDict (cast : String → Val → Val) (m : List (String × String))
    (f : Field) : Field :=
  match dictLookup f.name m with
  | some t => castField cast t f
  | Option.none => f

/-! ## Repartitioning (source lines 197-198) and the Spark backend -/

/-- Lines 197-198: `if df.rdd.getNumPartitions() < node_num: df =
df.repartition(node_num)`. -/
def repartitionStep (nodeNum : Nat) (df : DF) : DF :=
  if df.numPartitions < nodeNum then { df with numPartitions := nodeNum } else df

/-- The sharded collection returned to the caller (`SparkXShards` over the
RDD of per-partition pandas frames); we track its partition count, which
`mapPartitions`/`to_pandas` preserves. -/
structure XShards where
  numPartitions : Nat
  deriving Repr, DecidableEq

/-- Lines 81-213, the Spark-backend branch of `read_file_spark`:
file-type assertion, `mangle_dupe_cols`/`parse_dates` validation, CSV
option translation or direct JSON read, header rename, `names`/`usecols`/
`dtype` post-processing, repartition, and conversion of each engine
partition to a pandas frame.  `engineReadCsv`/`engineReadJson` stand for
`spark.read.csv`/`spark.read.json`. -/
def sparkBackendRead (engineReadCsv : CsvEngineOpts → List String → DF)
    (engineReadJson : List String → DF) (cast : String → Val → Val)
    (nodeNum : Nat) (filePaths : List String) (fileType : String)
    (opts : SparkOpts) : Except String XShards := do
  if fileType ≠ "json" ∧ fileType ≠ "csv" then
    .error ("Unsupported file type: " ++ fileType ++
      ". Only csv and json files are supported for now")
  else if opts.mangle_dupe_cols = some false then
    .error "mangle_dupe_cols can only be True"
  else if opts.parse_dates = some true then
    .error "parse_dates can only be False"
  else do
    let df ←
      if fileType = "csv" then do
        let oh ← translateCsv opts.names opts.header opts.quotechar
          opts.escapechar opts.comment
        .ok (headerRenameStep oh.2 (engineReadCsv oh.1 filePaths))
      else
        .ok (engineReadJson filePaths)
    let df ← namesStep opts.names df
    let df ← usecolsStep opts.usecols df
    let df ← applyDtype cast opts.dtype df
    let df := repartitionStep nodeNum df
    .ok { numPartitions := df.numPartitions }

/-! ## Top-level dispatch (source lines 47-216) -/

/-- The `file_path` argument of `read_csv`/`read_json`/`read_file_spark`:
a single path string or a list of path strings. -/
inductive PathArg where
  | str (s : String)
  | list (l : List String)
  deriving Repr, DecidableEq

/-- The process-wide `ZooContext.orca_pandas_read_backend` flag. -/
inductive Backend where
  | pandas
  | spark
  deriving Repr, DecidableEq

/-- Lines 53-57: the resolved file set — `extract_one_path` on a single
path, the concatenated union over the elements of a list.  (`extract`
stands for the `extract_one_path(path, file_type, os.environ)`
collaborator.) -/
def resolvedFiles (extract : String → List String) : PathArg → List String
  | .str s => extract s
  | .list l => l.flatMap extract

/-- Lines 63-65: the pandas-backend partition count,
`num_files if num_files < total_cores else total_cores`. -/
def pandasNumPartitions (numFiles totalCores : Nat) : Nat :=
  if numFiles < totalCores then numFiles else totalCores

/-- `read_file_spark(file_path, file_type, **kwargs)` (lines 47-216).
Line 49 evaluates `file_path.split("://")` unconditionally, before the
`isinstance(file_path, list)` dispatch of lines 54-57: a list argument
raises `AttributeError` there.  An empty resolved file set raises at lines
59-60.  The pandas backend parallelizes the file list into
`pandasNumPartitions` partitions and maps a per-file parser over them
(partition count preserved); the Spark backend delegates to
`sparkBackendRead`. -/
def read_file_spark (extract : String → List String) (backend : Backend)
    (engineReadCsv : CsvEngineOpts → List String → DF)
    (engineReadJson : List String → DF) (cast : String → Val → Val)
    (nodeNum coreNum : Nat) (file_path : PathArg) (fileType : String)
    (opts : SparkOpts) : Except String XShards := do
  -- line 49: file_path.split("://") — AttributeError on a list
  let _scheme ← match file_path with
    | .str s => Except.ok ((s.splitOn "://").headD "")
    | .list _ => .error "AttributeError: list object has no attribute split"
  let filePaths := resolvedFiles extract file_path
  if filePaths.isEmpty then
    .error "The file path is invalid/empty or does not include csv/json files"
  else
    match backend with
    | .pandas =>
        .ok { numPartitions :=
                pandasNumPartitions filePaths.length (nodeNum * coreNum) }
    | .spark =>
        sparkBackendRead engineReadCsv engineReadJson cast nodeNum filePaths
          fileType opts

/-- `read_csv(file_path, **kwargs)` (lines 23-32). -/
def read_csv (extract : String → List String) (backend : Backend)
    (engineReadCsv : CsvEngineOpts → List String → DF)
    (engineReadJson : List String → DF) (cast : String → Val → Val)
    (nodeNum coreNum : Nat) (file_path : PathArg) (opts : SparkOpts) :
    Except String XShards :=
  read_file_spark extract backend engineReadCsv engineReadJson cast nodeNum
    coreNum file_path "csv" opts

/-- `read_json(file_path, **kwargs)` (lines 35-44). -/
def read_json (extract : String → List String) (backend : Backend)
    (engineReadCsv : CsvEngineOpts → List String → DF)
    (engineReadJson : List String → DF) (cast : String → Val → Val)
    (nodeNum coreNum : Nat) (file_path : PathArg) (opts : SparkOpts) :
    Except String XShards :=
  read_file_spark extract backend engineReadCsv engineReadJson cast nodeNum
    coreNum file_path "json" opts

/-! ## Concrete instantiations of the external collaborators, used to
evaluate the embedded code at specific inputs -/

/-- A concrete path-expansion collaborator: every path stands for exactly
one file. -/
def exampleExtract (s : String) : List String := [s]

/-- A path-expansion collaborator that resolves nothing. -/
def emptyExtract : String → List String := fun _ => []

/-- A concrete engine CSV reader producing a one-column frame in one
partition. -/
def exampleReadCsv : CsvEngineOpts → List String → DF := fun _ ps =>
  { schema := [{ name := "a", dtype := "string", vals := ps }]
    numPartitions := 1 }

/-- A concrete engine JSON reader. -/
def exampleReadJson : List String → DF := fun ps =>
  { schema := [{ name := "a", dtype := "string", vals := ps }]
    numPartitions := 1 }

/-- A concrete engine cast: tags the value with the target type. -/
def exampleCast : String → Val → Val := fun t v => t ++ ":" ++ v

/-- A one-column frame used as concrete input. -/
def dfOneCol : DF :=
  { schema := [{ name := "a", dtype := "string", vals := ["v"] }]
    numPartitions := 1 }

/-- A three-column frame used as concrete input. -/
def dfThreeCol : DF :=
  { schema := [{ name := "a", dtype := "string", vals := ["1"] },
               { name := "b", dtype := "string", vals := ["2"] },
               { name := "c", dtype := "string", vals := ["3"] }]
    numPartitions := 1 }

/-- A concrete engine CSV reader returning a frame with 4 partitions. -/
def exampleReadCsv4 : CsvEngineOpts → List String → DF := fun _ _ =>
  { schema := [{ name := "a", dtype := "string", vals := [] }]
    numPartitions := 4 }

/-! ## Supporting lemmas -/

/-- Column names after a positional rename with a same-length name list. -/
lemma columns_renamePositional (df : DF) (ns : List String)
    (h : df.schema.length = ns.length) :
    (df.renamePositional ns).columns = ns := by
  unfold DF.renamePositional DF.columns
  simp only [List.map_map]
  have e : (Field.name ∘ fun fn : Field × String => { fn.1 with name := fn.2 })
      = Prod.snd := rfl
  rw [e]
  exact List.map_snd_zip _ _ (le_of_eq h.symm)

/-- A positional rename does not change the column data types. -/
lemma dtypes_renamePositional (df : DF) (ns : List String)
    (h : df.schema.length ≤ ns.length) :
    (df.renamePositional ns).schema.map Field.dtype =
      df.schema.map Field.dtype := by
  unfold DF.renamePositional
  simp only [List.map_map]
  have e : (Field.dtype ∘ fun fn : Field × String => { fn.1 with name := fn.2 })
      = Field.dtype ∘ Prod.fst := rfl
  rw [e, ← List.map_map, List.map_fst_zip _ _ h]

/-- A positional rename does not change the column values. -/
lemma vals_renamePositional (df : DF) (ns : List String)
    (h : df.schema.length ≤ ns.length) :
    (df.renamePositional ns).schema.map Field.vals =
      df.schema.map Field.vals := by
  unfold DF.renamePositional
  simp only [List.map_map]
  have e : (Field.vals ∘ fun fn : Field × String => { fn.1 with name := fn.2 })
      = Field.vals ∘ Prod.fst := rfl
  rw [e, ← List.map_map, List.map_fst_zip _ _ h]

/-- Inversion of a successful `Except` bind. -/
lemma except_bind_ok {α β : Type} {e : Except String α}
    {k : α → Except String β} {b : β} (h : e >>= k = .ok b) :
    ∃ a, e = .ok a ∧ k a = .ok b := by
  cases e with
  | error m => exact absurd h (by simp [Bind.bind, Except.bind])
  | ok a => exact ⟨a, rfl, by simpa [Bind.bind, Except.bind] using h⟩

/-- The repartition step never lowers the partition count below the node
count. -/
lemma le_repartitionStep (nodeNum : Nat) (df : DF) :
    nodeNum ≤ (repartitionStep nodeNum df).numPartitions := by
  unfold repartitionStep
  split
  · exact Nat.le_refl _
  · omega

/-- A successful Spark-backend read has at least `nodeNum` partitions. -/
lemma sparkBackendRead_ok_partitions
    (rc : CsvEngineOpts → List String → DF) (rj : List String → DF)
    (cast : String → Val → Val) (nodeNum : Nat) (fps : List String)
    (ft : String) (opts : SparkOpts) (sh : XShards)
    (h : sparkBackendRead rc rj cast nodeNum fps ft opts = .ok sh) :
    nodeNum ≤ sh.numPartitions := by
  unfold sparkBackendRead at h
  split_ifs at h
  all_goals
    repeat obtain ⟨_, _, h⟩ := except_bind_ok h
  all_goals
    have h2 := Except.ok.inj h
    rw [← h2]
    exact le_repartitionStep nodeNum _

/-- `len(set(names)) != len(names)` detects exactly the duplicated lists. -/
lemma dedup_length_ne_iff (ns : List String) :
    ns.dedup.length ≠ ns.length ↔ ¬ ns.Nodup := by
  constructor
  · intro h hnd
    exact h (by rw [List.dedup_eq_self.mpr hnd])
  · intro hnd h
    have he : ns.dedup = ns := ns.dedup_sublist.eq_of_length h
    exact hnd (he ▸ ns.nodup_dedup)

/-- In a frame with no duplicate column names, looking a member field up by
its name finds exactly that field. -/
lemma find?_name_of_nodup (l : List Field) (hnd : (l.map Field.name).Nodup)
    (g : Field) (hg : g ∈ l) :
    l.find? (fun f => f.name = g.name) = some g := by
  induction l with
  | nil => cases hg
  | cons f l ih =>
      rw [List.map_cons, List.nodup_cons] at hnd
      rcases List.mem_cons.mp hg with h | h
      · subst h
        exact List.find?_cons_of_pos _ (by simp)
      · have hne : f.name ≠ g.name := fun he =>
          hnd.1 (he ▸ List.mem_map_of_mem Field.name h)
        rw [List.find?_cons_of_neg _ (by simp [hne])]
        exact ih hnd.2 h

/-- `df.select` on the names of member fields returns exactly those fields
when the frame has no duplicate column names. -/
lemma select_of_mem (df : DF) (xs : List Field) (hnd : df.columns.Nodup)
    (hmem : ∀ g ∈ xs, g ∈ df.schema) :
    df.select (xs.map Field.name) = { df with schema := xs } := by
  unfold DF.select
  congr 1
  rw [List.filterMap_map]
  have h : ∀ g ∈ xs,
      ((fun c => df.schema.find? fun f => f.name = c) ∘ Field.name) g
        = some g := fun g hg =>
    find?_name_of_nodup df.schema hnd g (hmem g hg)
  rw [List.filterMap_congr h]
  exact List.filterMap_some xs

/-- All entries of an integer-wrapped list are `int` instances. -/
lemma all_isInt_map_int (is : List Int) :
    (is.map UsecolsEntry.int).all UsecolsEntry.isInt = true := by
  rw [List.all_eq_true]
  intro e he
  obtain ⟨n, _, rfl⟩ := List.mem_map.mp he
  rfl

/-- A non-empty string-wrapped list fails the all-integers test. -/
lemma all_isInt_map_str (ss : List String) (hne : ss ≠ []) :
    (ss.map UsecolsEntry.str).all UsecolsEntry.isInt = false := by
  cases ss with
  | nil => exact absurd rfl hne
  | cons a as => rfl

/-- All entries of a string-wrapped list are `str` instances. -/
lemma all_isStr_map_str (ss : List String) :
    (ss.map UsecolsEntry.str).all UsecolsEntry.isStr = true := by
  rw [List.all_eq_true]
  intro e he
  obtain ⟨s, _, rfl⟩ := List.mem_map.mp he
  rfl

/-- Unwrapping the integer entries of an integer-wrapped list. -/
lemma filterMap_toInt (is : List Int) :
    (is.map UsecolsEntry.int).filterMap UsecolsEntry.toInt = is := by
  rw [List.filterMap_map]
  exact List.filterMap_some is

/-- Unwrapping the string entries of a string-wrapped list. -/
lemma filterMap_toStr (ss : List String) :
    (ss.map UsecolsEntry.str).filterMap UsecolsEntry.toStr = ss := by
  rw [List.filterMap_map]
  exact List.filterMap_some ss

/-- The `missing` computation of the all-integers `usecols` branch returns
an empty list when every requested index is in range and its column name
was resolved. -/
lemma missingInts_all_ok (schema : List Field) (cols : List String)
    (is : List Int)
    (h : ∀ c ∈ is, 0 ≤ c ∧ c < schema.length ∧
      ∀ (hc : c.toNat < schema.length),
        (schema.get ⟨c.toNat, hc⟩).name ∈ cols) :
    missingInts schema cols is = .ok [] := by
  induction is with
  | nil => rfl
  | cons c rest ih =>
      obtain ⟨h0, hlt, hname⟩ := h c (List.mem_cons_self c rest)
      have hc2 : c.toNat < schema.length := by omega
      have hnotge : ¬ c ≥ (schema.length : Int) := by omega
      have hidx : pyIndex schema c = .ok (schema.get ⟨c.toNat, hc2⟩) := by
        unfold pyIndex
        rw [dif_pos ⟨h0, hlt⟩]
      have hrest : missingInts schema cols rest = .ok [] :=
        ih fun x hx => h x (List.mem_cons_of_mem c hx)
      simp only [missingInts]
      rw [if_neg hnotge]
      have hname2 : schema[c.toNat].name ∈ cols := by
        simpa [List.get_eq_getElem] using hname hc2
      simp [Bind.bind, Except.bind, hidx, hrest, hname2]

/-- Lookup misses keys that are not in the dict. -/
lemma dictLookup_eq_none {m : List (String × String)} {x : String}
    (h : x ∉ m.map Prod.fst) : dictLookup x m = Option.none := by
  induction m with
  | nil => rfl
  | cons kv m ih =>
      rw [List.map_cons, List.mem_cons, not_or] at h
      simp only [dictLookup]
      rw [if_neg fun he => h.1 he.symm]
      exact ih h.2

/-- Lookup in a constant dict built over member keys. -/
lemma dictLookup_map_const {cs : List String} {x t : String} (h : x ∈ cs) :
    dictLookup x (cs.map fun c => (c, t)) = some t := by
  induction cs with
  | nil => cases h
  | cons a cs ih =>
      simp only [List.map_cons, dictLookup]
      by_cases hax : a = x
      · rw [if_pos hax]
      · rw [if_neg hax]
        rcases List.mem_cons.mp h with he | hm
        · exact absurd he.symm hax
        · exact ih hm

/-- One `withColumn`/`astype` update succeeds on a present column. -/
lemma astypeCol_ok (cast : String → Val → Val) (df : DF) (c t : String)
    (hc : c ∈ df.columns) :
    df.astypeCol cast c t =
      .ok { df with schema := df.schema.map fun f =>
        if f.name = c then castField cast t f else f } := by
  have hany : (df.schema.any fun f => f.name = c) = true := by
    rw [List.any_eq_true]
    obtain ⟨f, hf, rfl⟩ := List.mem_map.mp hc
    exact ⟨f, hf, by simp⟩
  unfold DF.astypeCol
  rw [if_pos hany]

/-- The `astype` update of one column does not change the column names. -/
lemma columns_map_upd (cast : String → Val → Val) (df : DF) (c t : String) :
    ({ df with schema := df.schema.map fun f =>
        if f.name = c then castField cast t f else f } : DF).columns
      = df.columns := by
  unfold DF.columns
  simp only [List.map_map]
  apply List.map_congr_left
  intro f _
  by_cases hf : f.name = c <;> simp [castField, hf]

/-- Updating the head key of a dict commutes with the remaining dict when
the head key does not occur again. -/
lemma castByDict_cons (cast : String → Val → Val) (c t : String)
    (m : List (String × String)) (hcmem : c ∉ m.map Prod.fst) (f : Field) :
    castByDict cast m (if f.name = c then castField cast t f else f)
      = castByDict cast ((c, t) :: m) f := by
  by_cases hf : f.name = c
  · rw [if_pos hf]
    unfold castByDict
    have h1 : dictLookup (castField cast t f).name m = Option.none := by
      show dictLookup f.name m = Option.none
      rw [hf]
      exact dictLookup_eq_none hcmem
    have h2 : dictLookup f.name ((c, t) :: m) = some t := by
      simp only [dictLookup]
      rw [if_pos hf.symm]
    rw [h1, h2]
  · rw [if_neg hf]
    unfold castByDict
    have h2 : dictLookup f.name ((c, t) :: m) = dictLookup f.name m := by
      simp only [dictLookup]
      rw [if_neg fun he => hf he.symm]
    rw [h2]

/-- The `dtype`-dict loop of lines 190-192, folded over an association list
with distinct keys that are all present, casts exactly the listed columns. -/
lemma foldlM_astype (cast : String → Val → Val)
    (m : List (String × String)) (df : DF)
    (hk : (m.map Prod.fst).Nodup)
    (hin : ∀ kv ∈ m, kv.1 ∈ df.columns) :
    m.foldlM (fun d ct => d.astypeCol cast ct.1 ct.2) df =
      .ok { df with schema := df.schema.map (castByDict cast m) } := by
  induction m generalizing df with
  | nil =>
      rw [List.foldlM_nil]
      have he : df.schema.map (castByDict cast []) = df.schema := by
        have h0 : castByDict cast ([] : List (String × String)) = id := by
          funext f
          rfl
        rw [h0, List.map_id]
      rw [he]
      rfl
  | cons ct m ih =>
      obtain ⟨c, t⟩ := ct
      simp only [List.foldlM_cons]
      have hc : c ∈ df.columns := hin (c, t) (List.mem_cons_self _ _)
      rw [astypeCol_ok cast df c t hc]
      simp only [Bind.bind, Except.bind]
      have hk2 : (m.map Prod.fst).Nodup := by
        rw [List.map_cons, List.nodup_cons] at hk
        exact hk.2
      have hcmem : c ∉ m.map Prod.fst := by
        rw [List.map_cons, List.nodup_cons] at hk
        exact hk.1
      have hin2 : ∀ kv ∈ m, kv.1 ∈ ({ df with
          schema := df.schema.map fun f =>
            if f.name = c then castField cast t f else f } : DF).columns := by
        intro kv hkv
        rw [columns_map_upd]
        exact hin kv (List.mem_cons_of_mem _ hkv)
      rw [ih { df with schema := df.schema.map fun f =>
          if f.name = c then castField cast t f else f } hk2 hin2]
      have hs : ({ df with schema := df.schema.map fun f =>
            if f.name = c then castField cast t f else f } : DF).schema.map
              (castByDict cast m)
          = df.schema.map (castByDict cast ((c, t) :: m)) := by
        show (df.schema.map fun f =>
            if f.name = c then castField cast t f else f).map
              (castByDict cast m) = _
        rw [List.map_map]
        apply List.map_congr_left
        intro f _
        exact castByDict_cons cast c t m hcmem f
      rw [hs]

/-- The single-`dtype` loop over the column names is the dict loop over a
constant dict. -/
lemma foldlM_astype_single (cast : String → Val → Val) (t : String)
    (cs : List String) (df : DF) :
    cs.foldlM (fun d c => d.astypeCol cast c t) df =
      (cs.map fun c => (c, t)).foldlM
        (fun d ct => d.astypeCol cast ct.1 ct.2) df := by
  induction cs generalizing df with
  | nil => rfl
  | cons c cs ih =>
      simp only [List.map_cons, List.foldlM_cons]
      cases h : df.astypeCol cast c t with
      | error e => simp [Bind.bind, Except.bind, h]
      | ok d1 => simp [Bind.bind, Except.bind, h, ih]

/-- For integer `usecols` entries that do not underflow the schema, the
`missing` comprehension of lines 171-175 succeeds and returns exactly the
entries that fail the `intMissing` test. -/
lemma missingInts_ok_eq (schema : List Field) (cols : List String)
    (is : List Int) (h : ∀ c ∈ is, -(schema.length : Int) ≤ c) :
    missingInts schema cols is = .ok (is.filter (intMissing schema cols)) := by
  induction is with
  | nil => rfl
  | cons c rest ih =>
      have hc := h c (List.mem_cons_self _ _)
      have hrest := ih fun x hx => h x (List.mem_cons_of_mem _ hx)
      simp only [missingInts, List.filter_cons]
      by_cases hge : c ≥ (schema.length : Int)
      · rw [if_pos hge]
        have hm : intMissing schema cols c = true := by
          unfold intMissing
          rw [if_pos hge]
        simp [Bind.bind, Except.bind, hrest, hm]
      · rw [if_neg hge]
        have hlt : c < (schema.length : Int) := by omega
        by_cases h0 : 0 ≤ c
        · have hn : c.toNat < schema.length := by omega
          have hpy : pyIndex schema c = .ok (schema.get ⟨c.toNat, hn⟩) := by
            unfold pyIndex
            rw [dif_pos ⟨h0, hlt⟩]
          have hm : intMissing schema cols c
              = decide ((schema.get ⟨c.toNat, hn⟩).name ∉ cols) := by
            unfold intMissing
            rw [if_neg hge, if_neg (by omega), List.get?_eq_get hn]
          simp [Bind.bind, Except.bind, hpy, hrest, hm]
          split <;> rfl
        · have hneg : c < 0 := by omega
          have hn : ((schema.length : Int) + c).toNat < schema.length := by
            omega
          have hpy : pyIndex schema c
              = .ok (schema.get ⟨((schema.length : Int) + c).toNat, hn⟩) := by
            unfold pyIndex
            rw [dif_neg fun hh => h0 hh.1, dif_pos ⟨hc, hneg⟩]
          have hm : intMissing schema cols c
              = decide ((schema.get
                  ⟨((schema.length : Int) + c).toNat, hn⟩).name ∉ cols) := by
            unfold intMissing
            rw [if_neg hge, if_pos hneg, List.get?_eq_get hn]
          simp [Bind.bind, Except.bind, hpy, hrest, hm]
          split <;> rfl

/-- An integer `usecols` entry below `-len(schema)` makes line 174's
`df.schema[col]` raise `IndexError` while the `missing` entries are being
computed. -/
lemma missingInts_indexError (schema : List Field) (cols : List String)
    (is : List Int) (h : ∃ c ∈ is, c < -(schema.length : Int)) :
    missingInts schema cols is =
      .error "IndexError: list index out of range" := by
  induction is with
  | nil =>
      obtain ⟨c, hc, _⟩ := h
      cases hc
  | cons c rest ih =>
      simp only [missingInts]
      by_cases hge : c ≥ (schema.length : Int)
      · rw [if_pos hge]
        have hrest : ∃ x ∈ rest, x < -(schema.length : Int) := by
          obtain ⟨x, hx, hxlt⟩ := h
          rcases List.mem_cons.mp hx with rfl | hx2
          · omega
          · exact ⟨x, hx2, hxlt⟩
        simp [Bind.bind, Except.bind, ih hrest]
      · rw [if_neg hge]
        by_cases hcu : c < -(schema.length : Int)
        · have hidx : pyIndex schema c =
              .error "IndexError: list index out of range" := by
            unfold pyIndex
            rw [dif_neg (by omega), dif_neg (by omega)]
          simp [Bind.bind, Except.bind, hidx]
        · have h0 : -(schema.length : Int) ≤ c := by omega
          have hlt : c < (schema.length : Int) := by omega
          have hrest : ∃ x ∈ rest, x < -(schema.length : Int) := by
            obtain ⟨x, hx, hxlt⟩ := h
            rcases List.mem_cons.mp hx with rfl | hx2
            · omega
            · exact ⟨x, hx2, hxlt⟩
          have hpy : ∃ f, pyIndex schema c = .ok f := by
            unfold pyIndex
            by_cases h0c : 0 ≤ c ∧ c < (schema.length : Int)
            · rw [dif_pos h0c]
              exact ⟨_, rfl⟩
            · have hneg : c < 0 := by
                by_contra hpos
                exact h0c ⟨by omega, hlt⟩
              rw [dif_neg h0c, dif_pos ⟨h0, hneg⟩]
              exact ⟨_, rfl⟩
          obtain ⟨f, hf⟩ := hpy
          simp [Bind.bind, Except.bind, hf, ih hrest]

/-! ## Claim theorems -/

/-- C1 (code_bug): the spec (and `read_csv`'s own docstring) promise that a
list `file_path` is resolved element-wise and loaded, but line 49 evaluates
`file_path.split("://")` before the `isinstance(file_path, list)` dispatch
of lines 54-57, so a list argument raises `AttributeError` and the call
never returns a sharded collection.  This theorem evaluates the embedded
code at the failing input. -/
theorem list_file_path_attribute_error :
    read_csv exampleExtract .pandas exampleReadCsv exampleReadJson
      exampleCast 1 1 (.list ["a.csv", "b.csv"]) {} =
      .error "AttributeError: list object has no attribute split" := rfl

/-- C7: on the pandas backend, a non-empty resolved file set is split into
exactly `min (number of files) (node count × cores per node)` partitions. -/
theorem pandas_backend_partition_count (extract : String → List String)
    (rc : CsvEngineOpts → List String → DF) (rj : List String → DF)
    (cast : String → Val → Val) (nodeNum coreNum : Nat) (s : String)
    (fileType : String) (opts : SparkOpts) (hne : extract s ≠ []) :
    read_file_spark extract .pandas rc rj cast nodeNum coreNum (.str s)
      fileType opts =
      .ok { numPartitions := min (extract s).length (nodeNum * coreNum) } := by
  unfold read_file_spark
  have h1 : (resolvedFiles extract (.str s)).isEmpty = false := by
    simpa [resolvedFiles, List.isEmpty_iff] using hne
  simp only [h1, Bind.bind, Except.bind, Bool.false_eq_true, if_false]
  have h2 : pandasNumPartitions (extract s).length (nodeNum * coreNum) =
      min (extract s).length (nodeNum * coreNum) := by
    unfold pandasNumPartitions
    split <;> omega
  simp [resolvedFiles, h2]

/-- Witness for C7 at a concrete input. -/
theorem pandas_backend_partition_count_witness :
    read_file_spark exampleExtract .pandas exampleReadCsv exampleReadJson
      exampleCast 2 3 (.str "a.csv") "csv" {} = .ok { numPartitions := 1 } := by
  have h := pandas_backend_partition_count exampleExtract exampleReadCsv
    exampleReadJson exampleCast 2 3 "a.csv" "csv" {} (by decide)
  simpa using h

/-- C8 (counterexample): the claim says a frame whose partition count is
below the total worker-slot count (node count × cores per node) is
repartitioned up to that count.  With 2 nodes × 3 cores and an engine frame
of 4 partitions, 4 < 6 yet the code leaves the frame at 4 partitions: line
197 compares against `node_num` alone. -/
theorem repartition_slots_counterexample :
    read_file_spark exampleExtract .spark exampleReadCsv4 exampleReadJson
      exampleCast 2 3 (.str "a.csv") "csv" {} = .ok { numPartitions := 4 } ∧
    4 < 2 * 3 := ⟨rfl, by decide⟩

/-- C8 (amended): after post-processing, if the engine frame's partition
count is below the NODE count (`node_num`, not node count × cores), it is
repartitioned up to the node count; otherwise it is left unchanged — i.e.
the resulting partition count is the maximum of the two, and the data is
untouched. -/
theorem repartition_to_node_count (nodeNum : Nat) (df : DF) :
    (repartitionStep nodeNum df).numPartitions =
        max df.numPartitions nodeNum ∧
    (repartitionStep nodeNum df).schema = df.schema := by
  constructor
  · unfold repartitionStep
    split
    · show nodeNum = max df.numPartitions nodeNum
      omega
    · omega
  · unfold repartitionStep
    split
    · rfl
    · rfl

/-- C10: a callable `usecols` never produces a missing-columns error, and
when the resolution is empty (a predicate matching no column, or an empty
`usecols` list) the selection step is skipped, so every column of the
loaded frame is retained. -/
theorem callable_usecols_empty_resolution (df : DF) (p : String → Bool) :
    (∃ df2, usecolsStep (.callable p) df = .ok df2) ∧
    ((df.schema.filter fun f => p f.name) = [] →
      usecolsStep (.callable p) df = .ok df) ∧
    usecolsStep (.list []) df = .ok df := by
  refine ⟨?_, ?_, ?_⟩
  · simp only [usecolsStep]
    split <;> exact ⟨_, rfl⟩
  · intro h
    simp [usecolsStep, h]
  · simp [usecolsStep, missingInts, Bind.bind, Except.bind]

/-- Witness for C10 at a concrete input: a predicate matching no column of
a one-column frame keeps that column. -/
theorem callable_usecols_empty_resolution_witness :
    usecolsStep (.callable fun _ => false) dfOneCol = .ok dfOneCol :=
  (callable_usecols_empty_resolution dfOneCol fun _ => false).2.1 rfl

/-- C4 (counterexample): a callable `usecols` matching no column resolves to
an empty set; no error is raised, yet the full column set — not the (empty)
resolved set — is kept, because line 187 skips the selection whenever
`len(cols) == 0`.  So "only the resolved columns are kept" fails on a
one-column frame. -/
theorem usecols_empty_resolution_keeps_all :
    ((dfOneCol.schema.filter fun f => (fun _ => false) f.name).map Field.name)
      = [] ∧
    usecolsStep (.callable fun _ => false) dfOneCol = .ok dfOneCol ∧
    dfOneCol.columns = ["a"] :=
  ⟨rfl, rfl, rfl⟩

/-- C4 (amended): `usecols` entries are resolved by exact string match,
positional integer match, or callable predicate; requested entries absent
from the resolved set raise an error enumerating the missing entries —
for string lists, and for integer lists none of whose entries is below
`-len(schema)`; an integer entry below `-len(schema)` instead raises a
fatal, non-enumerating `IndexError` while the missing entries are being
computed; and whenever the resolved set is NON-EMPTY, exactly the resolved
columns are kept, in their original relative schema order (string lists,
in-range integer lists, and callables alike). -/
theorem usecols_selection (df : DF) (hnd : df.columns.Nodup) :
    (∀ ss : List String, (∃ s ∈ ss, s ∉ df.columns) →
      usecolsStep (.list (ss.map UsecolsEntry.str)) df =
        .error ("usecols do not match columns, columns expected but not found: "
          ++ showMissingStrs (ss.filter fun c =>
              c ∉ (df.schema.filter fun f => f.name ∈ ss).map Field.name))) ∧
    (∀ ss : List String, ss ≠ [] → (∀ s ∈ ss, s ∈ df.columns) →
      usecolsStep (.list (ss.map UsecolsEntry.str)) df =
        .ok { df with schema := df.schema.filter fun f => f.name ∈ ss }) ∧
    (∀ is : List Int, is ≠ [] →
      (∀ i ∈ is, 0 ≤ i ∧ i < (df.schema.length : Int)) →
      usecolsStep (.list (is.map UsecolsEntry.int)) df =
        .ok { df with schema :=
          (df.schema.enum.filter fun fi => (fi.1 : Int) ∈ is).map Prod.snd }) ∧
    (∀ p : String → Bool, (df.schema.filter fun f => p f.name) ≠ [] →
      usecolsStep (.callable p) df =
        .ok { df with schema := df.schema.filter fun f => p f.name }) ∧
    (∀ is : List Int, (∀ i ∈ is, -(df.schema.length : Int) ≤ i) →
      is.filter (intMissing df.schema
        ((df.schema.enum.filter fun fi => (fi.1 : Int) ∈ is).map
          fun fi => fi.2.name)) ≠ [] →
      usecolsStep (.list (is.map UsecolsEntry.int)) df =
        .error ("usecols do not match columns, columns expected but not found: "
          ++ showMissingInts (is.filter (intMissing df.schema
            ((df.schema.enum.filter fun fi => (fi.1 : Int) ∈ is).map
              fun fi => fi.2.name))))) ∧
    (∀ is : List Int, (∃ i ∈ is, i < -(df.schema.length : Int)) →
      usecolsStep (.list (is.map UsecolsEntry.int)) df =
        .error "IndexError: list index out of range") := by
  have hsubcols : ∀ (q : Field → Bool) (s : String),
      s ∈ (df.schema.filter q).map Field.name → s ∈ df.columns := by
    intro q s hs
    obtain ⟨f, hf, rfl⟩ := List.mem_map.mp hs
    exact List.mem_map_of_mem Field.name (List.mem_of_mem_filter hf)
  refine ⟨?_, ?_, ?_, ?_, ?_, ?_⟩
  · rintro ss ⟨s, hs, hsnot⟩
    have hne : ss ≠ [] := List.ne_nil_of_mem hs
    simp only [usecolsStep, all_isInt_map_str ss hne, all_isStr_map_str ss,
      filterMap_toStr ss, Bool.false_eq_true, if_false, if_true]
    have hmem : s ∈ ss.filter fun c =>
        c ∉ (df.schema.filter fun f => f.name ∈ ss).map Field.name := by
      rw [List.mem_filter]
      refine ⟨hs, ?_⟩
      simp only [decide_eq_true_eq]
      intro hc
      exact hsnot (hsubcols _ s hc)
    rw [if_pos (List.length_pos.mpr (List.ne_nil_of_mem hmem))]
  · intro ss hne hall
    simp only [usecolsStep, all_isInt_map_str ss hne, all_isStr_map_str ss,
      filterMap_toStr ss, Bool.false_eq_true, if_false, if_true]
    have hmissing : (ss.filter fun c =>
        c ∉ (df.schema.filter fun f => f.name ∈ ss).map Field.name) = [] := by
      rw [List.filter_eq_nil_iff]
      intro s hs
      simp only [decide_eq_true_eq, not_not]
      obtain ⟨f, hf, rfl⟩ := List.mem_map.mp (hall s hs)
      exact List.mem_map_of_mem Field.name
        (List.mem_filter.mpr ⟨hf, by simpa using hs⟩)
    rw [hmissing]
    rw [if_neg (by simp)]
    obtain ⟨s, hs⟩ := List.exists_mem_of_ne_nil ss hne
    have hscol : s ∈ (df.schema.filter fun f => f.name ∈ ss).map Field.name := by
      obtain ⟨f, hf, rfl⟩ := List.mem_map.mp (hall s hs)
      exact List.mem_map_of_mem Field.name
        (List.mem_filter.mpr ⟨hf, by simpa using hs⟩)
    rw [if_pos (List.length_pos.mpr (List.ne_nil_of_mem hscol))]
    rw [select_of_mem df _ hnd fun g hg => List.mem_of_mem_filter hg]
  · intro is hne hrange
    have hints : (is.map UsecolsEntry.int).all UsecolsEntry.isInt = true :=
      all_isInt_map_int is
    simp only [usecolsStep, hints, filterMap_toInt is, if_true]
    have hcolmem : ∀ c ∈ is, ∀ (hc : c.toNat < df.schema.length),
        (df.schema.get ⟨c.toNat, hc⟩).name ∈
          ((df.schema.enum.filter fun fi => (fi.1 : Int) ∈ is).map
            fun fi => fi.2.name) := by
      intro c hc hclt
      have henl : c.toNat < df.schema.enum.length := by
        rw [List.enum_length]; exact hclt
      have hpair : df.schema.enum.get ⟨c.toNat, henl⟩
          = (c.toNat, df.schema.get ⟨c.toNat, hclt⟩) := by
        simp [List.getElem_enum]
      have hmemenum : (c.toNat, df.schema.get ⟨c.toNat, hclt⟩)
          ∈ df.schema.enum := hpair ▸ List.get_mem _ _ henl
      have hcint : ((c.toNat : Nat) : Int) = c :=
        Int.toNat_of_nonneg (hrange c hc).1
      have hfilt : (c.toNat, df.schema.get ⟨c.toNat, hclt⟩)
          ∈ df.schema.enum.filter fun fi => (fi.1 : Int) ∈ is :=
        List.mem_filter.mpr ⟨hmemenum, by simp [hcint, hc]⟩
      exact List.mem_map_of_mem (fun fi => fi.2.name) hfilt
    have hmiss : missingInts df.schema
        ((df.schema.enum.filter fun fi => (fi.1 : Int) ∈ is).map
          fun fi => fi.2.name) is = .ok [] := by
      apply missingInts_all_ok
      intro c hc
      exact ⟨(hrange c hc).1, (hrange c hc).2, hcolmem c hc⟩
    rw [hmiss]
    simp only [Bind.bind, Except.bind]
    rw [if_neg (by simp)]
    obtain ⟨c, hc⟩ := List.exists_mem_of_ne_nil is hne
    have hclt : c.toNat < df.schema.length := by
      have := hrange c hc
      omega
    have hnonempty : ((df.schema.enum.filter fun fi => (fi.1 : Int) ∈ is).map
        fun fi => fi.2.name) ≠ [] :=
      List.ne_nil_of_mem (hcolmem c hc hclt)
    rw [if_pos (List.length_pos.mpr hnonempty)]
    have hcols : ((df.schema.enum.filter fun fi => (fi.1 : Int) ∈ is).map
        fun fi => fi.2.name) =
        ((df.schema.enum.filter fun fi => (fi.1 : Int) ∈ is).map
          Prod.snd).map Field.name := by
      rw [List.map_map]
      rfl
    rw [hcols]
    rw [select_of_mem df _ hnd ?_]
    intro g hg
    obtain ⟨fi, hfi, rfl⟩ := List.mem_map.mp hg
    have : fi ∈ df.schema.enum := List.mem_of_mem_filter hfi
    have h2 : fi.2 ∈ df.schema.enum.map Prod.snd :=
      List.mem_map_of_mem Prod.snd this
    rwa [List.enum_map_snd] at h2
  · intro p hne
    simp only [usecolsStep]
    have hlen : 0 < ((df.schema.filter fun f => p f.name).map Field.name).length := by
      rw [List.length_map]
      exact List.length_pos.mpr hne
    rw [if_pos hlen]
    rw [select_of_mem df _ hnd fun g hg => List.mem_of_mem_filter hg]
  · intro is hge hne
    have hints := all_isInt_map_int is
    simp only [usecolsStep, hints, filterMap_toInt is, if_true]
    rw [missingInts_ok_eq df.schema _ is hge]
    simp only [Bind.bind, Except.bind]
    rw [if_pos (List.length_pos.mpr hne)]
  · intro is hex
    have hints := all_isInt_map_int is
    simp only [usecolsStep, hints, filterMap_toInt is, if_true]
    rw [missingInts_indexError df.schema _ is hex]
    rfl

/-- Witness for C4 (amended) at concrete inputs on a 3-column frame:
a missing string entry, an exact-match selection, a positional selection,
a predicate selection, a missing integer entry (enumerated), and an
integer entry below `-len(schema)` (IndexError). -/
theorem usecols_selection_witness :
    (usecolsStep (.list [UsecolsEntry.str "missing"]) dfThreeCol =
      .error ("usecols do not match columns, columns expected but not found: "
        ++ showMissingStrs ["missing"])) ∧
    (usecolsStep (.list [UsecolsEntry.str "a", UsecolsEntry.str "c"])
        dfThreeCol =
      .ok { schema := [{ name := "a", dtype := "string", vals := ["1"] },
                       { name := "c", dtype := "string", vals := ["3"] }],
            numPartitions := 1 }) ∧
    (usecolsStep (.list [UsecolsEntry.int 0, UsecolsEntry.int 2]) dfThreeCol =
      .ok { schema := [{ name := "a", dtype := "string", vals := ["1"] },
                       { name := "c", dtype := "string", vals := ["3"] }],
            numPartitions := 1 }) ∧
    (usecolsStep (.callable fun s => s == "b") dfThreeCol =
      .ok { schema := [{ name := "b", dtype := "string", vals := ["2"] }],
            numPartitions := 1 }) ∧
    (usecolsStep (.list [UsecolsEntry.int 0, UsecolsEntry.int 5]) dfThreeCol =
      .error ("usecols do not match columns, columns expected but not found: "
        ++ showMissingInts [5])) ∧
    (usecolsStep (.list [UsecolsEntry.int (-4)]) dfThreeCol =
      .error "IndexError: list index out of range") :=
  ⟨(usecols_selection dfThreeCol (by decide)).1 ["missing"]
      ⟨"missing", by decide, by decide⟩,
   (usecols_selection dfThreeCol (by decide)).2.1 ["a", "c"] (by decide)
      (by decide),
   (usecols_selection dfThreeCol (by decide)).2.2.1 [0, 2] (by decide)
      (by decide),
   (usecols_selection dfThreeCol (by decide)).2.2.2.1 (fun s => s == "b")
      (by decide),
   (usecols_selection dfThreeCol (by decide)).2.2.2.2.1 [0, 5] (by decide)
      (by decide),
   (usecols_selection dfThreeCol (by decide)).2.2.2.2.2 [-4]
      ⟨-4, by decide, by decide⟩⟩

/-- C5: for CSV, `header="infer"` resolves to header-present exactly when no
explicit `names` were supplied, `header=0` resolves to header-present,
`header=None` to header-absent, any other header value raises; and when the
resolved header is absent the engine-loaded columns are renamed positionally
to their zero-based index as string labels (otherwise they are untouched). -/
theorem csv_header_translation (names : NamesArg) (df : DF) :
    (names = NamesArg.none →
      headerFlag (resolveHeader names .infer) = .ok true) ∧
    (names ≠ NamesArg.none →
      headerFlag (resolveHeader names .infer) = .ok false) ∧
    headerFlag (resolveHeader names (.int 0)) = .ok true ∧
    headerFlag (resolveHeader names HeaderArg.none) = .ok false ∧
    (∀ n : Int, n ≠ 0 →
      ∃ msg, headerFlag (resolveHeader names (.int n)) = .error msg) ∧
    (∀ r : String,
      ∃ msg, headerFlag (resolveHeader names (.other r)) = .error msg) ∧
    (headerRenameStep HeaderArg.none df).columns =
      (List.range df.schema.length).map toString ∧
    (∀ h, h ≠ HeaderArg.none → headerRenameStep h df = df) := by
  refine ⟨?_, ?_, ?_, ?_, ?_, ?_, ?_, ?_⟩
  · intro h
    simp [resolveHeader, headerFlag, h]
  · intro h
    simp [resolveHeader, headerFlag, h]
  · simp [resolveHeader, headerFlag]
  · simp [resolveHeader, headerFlag]
  · intro n hn
    refine ⟨"Unknown header argument " ++ (HeaderArg.int n).display, ?_⟩
    simp [resolveHeader, headerFlag, hn]
  · intro r
    refine ⟨"Unknown header argument " ++ (HeaderArg.other r).display, ?_⟩
    simp [resolveHeader, headerFlag]
  · unfold headerRenameStep
    rw [if_pos rfl]
    exact columns_renamePositional df _ (by simp)
  · intro h hne
    simp [headerRenameStep, hne]

/-- Witness for C5 at concrete inputs: inference with and without names,
a rejected header value, and a no-op rename for a present header. -/
theorem csv_header_translation_witness :
    headerFlag (resolveHeader NamesArg.none .infer) = .ok true ∧
    headerFlag (resolveHeader (NamesArg.str "a INT") .infer) = .ok false ∧
    (∃ msg, headerFlag (resolveHeader NamesArg.none (.int 5)) = .error msg) ∧
    headerRenameStep (HeaderArg.int 0) dfOneCol = dfOneCol :=
  ⟨(csv_header_translation NamesArg.none dfOneCol).1 rfl,
   (csv_header_translation (NamesArg.str "a INT") dfOneCol).2.1 (by decide),
   (csv_header_translation NamesArg.none dfOneCol).2.2.2.2.1 5 (by decide),
   (csv_header_translation NamesArg.none dfOneCol).2.2.2.2.2.2.2
     (HeaderArg.int 0) (by decide)⟩

/-- C3: when `names` is a list, duplicates raise, a length different from
the engine-inferred column count raises with a message naming both counts,
and otherwise the columns are renamed positionally in order (data types and
values untouched). -/
theorem names_list_validation (ns : List String) (df : DF) :
    (¬ ns.Nodup → namesStep (.list ns) df =
        .error "Found duplicate names, please check your names input") ∧
    (ns.Nodup → ns.length ≠ df.schema.length → namesStep (.list ns) df =
        .error ("The number of names [" ++ toString ns.length ++
          "] does not match the number of columns [" ++
          toString df.schema.length ++
          "]. Try names by a Spark SQL DDL-formatted string.")) ∧
    (ns.Nodup → ns.length = df.schema.length →
        ∃ df2, namesStep (.list ns) df = .ok df2 ∧ df2.columns = ns ∧
          df2.schema.map Field.dtype = df.schema.map Field.dtype ∧
          df2.schema.map Field.vals = df.schema.map Field.vals) := by
  refine ⟨?_, ?_, ?_⟩
  · intro h
    simp [namesStep, (dedup_length_ne_iff ns).mpr h]
  · intro hnd hlen
    have h1 : ns.dedup.length = ns.length := by
      rw [List.dedup_eq_self.mpr hnd]
    simp [namesStep, h1, hlen]
  · intro hnd hlen
    have h1 : ns.dedup.length = ns.length := by
      rw [List.dedup_eq_self.mpr hnd]
    refine ⟨df.renamePositional ns, ?_, ?_, ?_, ?_⟩
    · simp [namesStep, h1, hlen]
    · exact columns_renamePositional df ns hlen.symm
    · exact dtypes_renamePositional df ns (le_of_eq hlen.symm)
    · exact vals_renamePositional df ns (le_of_eq hlen.symm)

/-- Witness for C3 at concrete inputs: duplicate names, a length mismatch
on a 3-column frame, and a successful positional rename. -/
theorem names_list_validation_witness :
    (namesStep (.list ["a", "a"]) dfThreeCol =
      .error "Found duplicate names, please check your names input") ∧
    (namesStep (.list ["x", "y"]) dfThreeCol =
      .error ("The number of names [" ++ toString (2 : Nat) ++
        "] does not match the number of columns [" ++ toString (3 : Nat) ++
        "]. Try names by a Spark SQL DDL-formatted string.")) ∧
    (∃ df2, namesStep (.list ["x", "y", "z"]) dfThreeCol = .ok df2 ∧
      df2.columns = ["x", "y", "z"] ∧
      df2.schema.map Field.dtype = dfThreeCol.schema.map Field.dtype ∧
      df2.schema.map Field.vals = dfThreeCol.schema.map Field.vals) :=
  ⟨(names_list_validation ["a", "a"] dfThreeCol).1 (by decide),
   (names_list_validation ["x", "y"] dfThreeCol).2.1 (by decide) (by decide),
   (names_list_validation ["x", "y", "z"] dfThreeCol).2.2 (by decide)
     (by decide)⟩

/-- C6: on the Spark backend, option validation is fatal and happens before
the engine read is invoked: a present-and-false `mangle_dupe_cols` raises,
a present-and-true `parse_dates` raises, and for CSV a present `comment`
that is not a length-1 string raises — in each case the result is the
validation error for every possible engine reader, so no engine read can
have been issued. -/
theorem option_validation_before_engine_read (cast : String → Val → Val)
    (nodeNum : Nat) (filePaths : List String) (fileType : String)
    (opts : SparkOpts) (hft : fileType = "csv" ∨ fileType = "json") :
    (opts.mangle_dupe_cols = some false →
      ∀ (rc : CsvEngineOpts → List String → DF) (rj : List String → DF),
        sparkBackendRead rc rj cast nodeNum filePaths fileType opts =
          .error "mangle_dupe_cols can only be True") ∧
    (opts.mangle_dupe_cols ≠ some false → opts.parse_dates = some true →
      ∀ (rc : CsvEngineOpts → List String → DF) (rj : List String → DF),
        sparkBackendRead rc rj cast nodeNum filePaths fileType opts =
          .error "parse_dates can only be False") ∧
    (fileType = "csv" → opts.mangle_dupe_cols ≠ some false →
      opts.parse_dates ≠ some true →
      ∀ b, headerFlag (resolveHeader opts.names opts.header) = .ok b →
      ∀ ca, opts.comment = some ca →
        (∀ s, ca = CommentArg.str s → s.length ≠ 1) →
      ∀ (rc : CsvEngineOpts → List String → DF) (rj : List String → DF),
        sparkBackendRead rc rj cast nodeNum filePaths fileType opts =
          .error "Only length-1 comment characters supported") := by
  have hft2 : ¬(fileType ≠ "json" ∧ fileType ≠ "csv") := by
    rcases hft with h | h <;> simp [h]
  refine ⟨?_, ?_, ?_⟩
  · intro h rc rj
    simp [sparkBackendRead, hft2, h]
  · intro h1 h2 rc rj
    simp [sparkBackendRead, hft2, h1, h2]
  · intro hcsv h1 h2 b hb ca hca hlen rc rj
    subst hcsv
    have hcheck : checkComment opts.comment =
        .error "Only length-1 comment characters supported" := by
      rw [hca]
      cases ca with
      | str s => simp [checkComment, hlen s rfl]
      | nonstr => simp [checkComment]
    have htr : translateCsv opts.names opts.header opts.quotechar
        opts.escapechar opts.comment =
        .error "Only length-1 comment characters supported" := by
      unfold translateCsv
      simp [Bind.bind, Except.bind, hb, hcheck]
    simp [sparkBackendRead, h1, h2, htr, Bind.bind, Except.bind]

/-- Witness for C6 at concrete inputs: each of the three validations fires
regardless of the engine reader (here the concrete example readers). -/
theorem option_validation_before_engine_read_witness :
    (sparkBackendRead exampleReadCsv exampleReadJson exampleCast 1 ["f.csv"]
      "csv" { mangle_dupe_cols := some false } =
      .error "mangle_dupe_cols can only be True") ∧
    (sparkBackendRead exampleReadCsv exampleReadJson exampleCast 1 ["f.csv"]
      "csv" { parse_dates := some true } =
      .error "parse_dates can only be False") ∧
    (sparkBackendRead exampleReadCsv exampleReadJson exampleCast 1 ["f.csv"]
      "csv" { comment := some (CommentArg.str "##") } =
      .error "Only length-1 comment characters supported") :=
  ⟨(option_validation_before_engine_read exampleCast 1 ["f.csv"] "csv"
      { mangle_dupe_cols := some false } (Or.inl rfl)).1 rfl
      exampleReadCsv exampleReadJson,
   (option_validation_before_engine_read exampleCast 1 ["f.csv"] "csv"
      { parse_dates := some true } (Or.inl rfl)).2.1 (by decide) rfl
      exampleReadCsv exampleReadJson,
   (option_validation_before_engine_read exampleCast 1 ["f.csv"] "csv"
      { comment := some (CommentArg.str "##") } (Or.inl rfl)).2.2 rfl
      (by decide) (by decide) true rfl (CommentArg.str "##") rfl
      (by intro s hs; cases hs; decide) exampleReadCsv exampleReadJson⟩

/-- C2: an empty resolved file set always yields a fatal error (with a
non-empty message) before the backend is consulted — the result does not
depend on the engine readers — and every successful call returns a sharded
collection with at least one partition (assuming at least one node and one
core per node), never an empty-but-valid collection. -/
theorem empty_resolution_and_partition_invariant
    (extract : String → List String) (backend : Backend)
    (rc : CsvEngineOpts → List String → DF) (rj : List String → DF)
    (cast : String → Val → Val) (nodeNum coreNum : Nat) (path : PathArg)
    (fileType : String) (opts : SparkOpts)
    (hn : 1 ≤ nodeNum) (hc : 1 ≤ coreNum) :
    (resolvedFiles extract path = [] →
      ∀ (rc2 : CsvEngineOpts → List String → DF) (rj2 : List String → DF),
        ∃ msg, msg ≠ "" ∧
          read_file_spark extract backend rc2 rj2 cast nodeNum coreNum path
            fileType opts = .error msg) ∧
    (∀ sh, read_file_spark extract backend rc rj cast nodeNum coreNum path
        fileType opts = .ok sh → 1 ≤ sh.numPartitions) := by
  constructor
  · intro hempty rc2 rj2
    cases path with
    | list l =>
        exact ⟨"AttributeError: list object has no attribute split",
          by decide, rfl⟩
    | str s =>
        refine ⟨"The file path is invalid/empty or does not include csv/json files",
          by decide, ?_⟩
        have he : extract s = [] := hempty
        simp [read_file_spark, resolvedFiles, he, Bind.bind, Except.bind]
  · intro sh h
    cases path with
    | list l =>
        exact absurd h (by simp [read_file_spark, Bind.bind, Except.bind])
    | str s =>
        rw [read_file_spark] at h
        simp only [Bind.bind, Except.bind] at h
        by_cases he : (resolvedFiles extract (.str s)).isEmpty
        · rw [if_pos he] at h
          exact absurd h (by simp)
        · rw [if_neg he] at h
          cases backend with
          | pandas =>
              have h2 := Except.ok.inj h
              rw [← h2]
              have hlen : 1 ≤ (resolvedFiles extract (.str s)).length := by
                have : resolvedFiles extract (.str s) ≠ [] := by
                  simpa [List.isEmpty_iff] using he
                exact List.length_pos.mpr this
              show 1 ≤ pandasNumPartitions _ _
              unfold pandasNumPartitions
              have htc : 1 ≤ nodeNum * coreNum := Nat.mul_pos hn hc
              split <;> omega
          | spark =>
              exact le_trans hn
                (sparkBackendRead_ok_partitions rc rj cast nodeNum _
                  fileType opts sh h)

/-- Witness for C2 at concrete inputs: a resolving-to-nothing collaborator
yields an error, and a successful Spark-backend read on one node with one
core has one partition. -/
theorem empty_resolution_and_partition_invariant_witness :
    (∃ msg, msg ≠ "" ∧
      read_file_spark emptyExtract .pandas exampleReadCsv exampleReadJson
        exampleCast 1 1 (.str "nope") "csv" {} = .error msg) ∧
    read_file_spark exampleExtract .spark exampleReadCsv exampleReadJson
      exampleCast 1 1 (.str "a.csv") "csv" {} = .ok { numPartitions := 1 } ∧
    1 ≤ ({ numPartitions := 1 } : XShards).numPartitions :=
  ⟨(empty_resolution_and_partition_invariant emptyExtract .pandas
      exampleReadCsv exampleReadJson exampleCast 1 1 (.str "nope") "csv" {}
      (by decide) (by decide)).1 rfl exampleReadCsv exampleReadJson,
   rfl,
   (empty_resolution_and_partition_invariant exampleExtract .spark
      exampleReadCsv exampleReadJson exampleCast 1 1 (.str "a.csv") "csv" {}
      (by decide) (by decide)).2 { numPartitions := 1 } rfl⟩

/-- C9: with `dtype` a per-column dict (distinct keys, all naming existing
columns of a duplicate-free frame), every listed column is cast to its
given type and every column not listed is left unchanged — values and type
— and with `dtype` a single type, every column is cast to it. -/
theorem dtype_cast_semantics (cast : String → Val → Val)
    (m : List (String × String)) (df : DF)
    (hk : (m.map Prod.fst).Nodup)
    (hin : ∀ kv ∈ m, kv.1 ∈ df.columns)
    (hnd : df.columns.Nodup) :
    applyDtype cast (.dict m) df =
      .ok { df with schema := df.schema.map (castByDict cast m) } ∧
    ∀ t, applyDtype cast (.single t) df =
      .ok { df with schema := df.schema.map (castField cast t) } := by
  constructor
  · simp only [applyDtype]
    exact foldlM_astype cast m df hk hin
  · intro t
    simp only [applyDtype]
    rw [foldlM_astype_single cast t df.columns df]
    have hk2 : ((df.columns.map fun c => (c, t)).map Prod.fst).Nodup := by
      rw [List.map_map]
      have h0 : (Prod.fst ∘ fun c : String => (c, t)) = id := rfl
      rw [h0, List.map_id]
      exact hnd
    have hin2 : ∀ kv ∈ (df.columns.map fun c => (c, t)),
        kv.1 ∈ df.columns := by
      intro kv hkv
      obtain ⟨c, hc, rfl⟩ := List.mem_map.mp hkv
      exact hc
    rw [foldlM_astype cast _ df hk2 hin2]
    have hmap : df.schema.map (castByDict cast
          (df.columns.map fun c => (c, t)))
        = df.schema.map (castField cast t) := by
      apply List.map_congr_left
      intro f hf
      unfold castByDict
      have hmem : f.name ∈ df.columns := List.mem_map_of_mem Field.name hf
      rw [dictLookup_map_const hmem]
    rw [hmap]

/-- Witness for C9 at concrete inputs: cast column `a` of a 3-column frame
to `int64` (columns `b` and `c` untouched), and cast all columns to `f64`. -/
theorem dtype_cast_semantics_witness :
    (applyDtype exampleCast (.dict [("a", "int64")]) dfThreeCol =
      .ok { schema := [{ name := "a", dtype := "int64", vals := ["int64:1"] },
                       { name := "b", dtype := "string", vals := ["2"] },
                       { name := "c", dtype := "string", vals := ["3"] }],
            numPartitions := 1 }) ∧
    (applyDtype exampleCast (.single "f64") dfThreeCol =
      .ok { schema := [{ name := "a", dtype := "f64", vals := ["f64:1"] },
                       { name := "b", dtype := "f64", vals := ["f64:2"] },
                       { name := "c", dtype := "f64", vals := ["f64:3"] }],
            numPartitions := 1 }) :=
  ⟨(dtype_cast_semantics exampleCast [("a", "int64")] dfThreeCol (by decide)
      (by decide) (by decide)).1,
   (dtype_cast_semantics exampleCast [("a", "int64")] dfThreeCol (by decide)
      (by decide) (by decide)).2 "f64"⟩

end Preprocessing
